import Mathlib

set_option maxHeartbeats 1000000
set_option maxRecDepth 100000

/-!
Shallow embedding of the json-to-pdf layout engine (src/generatePDF.ts).

The generator walks a normalized JSON object, classifies each field
(text, image table, table, skip), threads a vertical cursor y through
the renderers, and breaks pages through ensureSpacing.  Drawing is
modelled as a trace of operations (Op), newest first, each tagged with
the 1-based page it is drawn on.  External collaborators (the canvas
text wrapping splitTextToSize, the autoTable grid layout, the HTTP
image fetch in imageToBase64) are modelled as oracle functions, so all
theorems quantify over every behaviour of those collaborators.  Page
width and height come from the canvas (doc.internal.pageSize) and are
integer parameters; font settings are drawing attributes with no
layout effect and are not traced.
-/

/-- JavaScript values as produced by JSON parsing (the shape of jsonData
after cleanJSON, which rebuilds arrays and objects and passes scalars
through unchanged). -/
inductive JsValue where
  | str (s : String)
  | num (n : Int)
  | bool (b : Bool)
  | null
  | arr (elems : List JsValue)
  | obj (fields : List (String × JsValue))

/-- JS property access row[k]: own field of an object, undefined (none)
otherwise.  Access on null throws in JS; call sites handle that case
explicitly. -/
def jsGet : JsValue → String → Option JsValue
  | .obj fields, k => fields.lookup k
  | _, _ => none

/-- JS truthiness of a JSON value. -/
def jsTruthy : JsValue → Bool
  | .str s => !(s == "")
  | .num n => !(n == 0)
  | .bool b => b
  | .null => false
  | .arr _ => true
  | .obj _ => true

/-- JS truthiness where none stands for undefined. -/
def jsTruthyOpt : Option JsValue → Bool
  | some v => jsTruthy v
  | none => false

/-- JS expression x || d over an optional numeric field (0 is falsy). -/
def jsOrNum : Option Int → Int → Int
  | some n, d => if n = 0 then d else n
  | none, d => d

/-- Numeric field of a row; non-numeric values are modelled as absent
(the rows the engine is fed carry numeric geometry fields). -/
def jsNumField (row : JsValue) (k : String) : Option Int :=
  match jsGet row k with
  | some (.num n) => some n
  | _ => none

/-- JS test typeof v === "object" (true for mappings, arrays and null). -/
def typeofObject : JsValue → Bool
  | .obj _ => true
  | .arr _ => true
  | .null => true
  | _ => false

/-- Keys as Object.keys computes them: field names of a mapping, decimal
index strings of an array, and none for null (where Object.keys throws
a TypeError). -/
def objKeys? : JsValue → Option (List String)
  | .obj fields => some (fields.map Prod.fst)
  | .arr elems => some ((List.range elems.length).map Nat.repr)
  | _ => none

/-- One drawing or collaborator event.  GenState.ops lists them newest
first; page-tagged constructors record the page they are drawn on. -/
inductive Op where
  | headerBand (page : Nat)
  | footerBand (page : Nat)
  | pageBreak (page : Nat)
  | textWrite (page : Nat) (x y : Int) (s : String)
  | imageDraw (page : Nat) (x y w h : Int)
  | tableStart (page : Nat) (startY : Int) (headers : List String) (nrows : Nat)
  | fetchCall
  | diag
  | ensureCall (y needed : Int)
  | stamp (idx total : Nat) (x y : Int)
  deriving DecidableEq, Repr

/-- Oracles for the external collaborators: doc.splitTextToSize, the
success of imageToBase64 for a given url value, and per table call the
number of pages autoTable creates internally and its finalY. -/
structure Oracles where
  split : String → Int → List String
  fetchOk : JsValue → Bool
  tableExtra : Nat → Nat
  tableFinalY : Nat → Int

/-- Fixed per-generation data: page geometry, whether the document
declared a truthy footer field, and the collaborator oracles. -/
structure Ctx where
  pageWidth : Int
  pageHeight : Int
  hasFooter : Bool
  orc : Oracles

/-- Mutable generation state: cursor y, current page, page count, the
number of tables rendered so far (to index the autoTable oracle), and
the reversed trace of operations. -/
structure GenState where
  y : Int
  page : Nat
  npages : Nat
  tcount : Nat
  ops : List Op
  deriving DecidableEq, Repr

def pushOp (st : GenState) (op : Op) : GenState := { st with ops := op :: st.ops }

/-- Model of doc.addPage(): appends a page and makes it current. -/
def addPageOp (st : GenState) : GenState :=
  { st with
    page := st.npages + 1
    npages := st.npages + 1
    ops := Op.pageBreak (st.npages + 1) :: st.ops }

/-- Model of addHeader: header furniture on the current page (the
function always draws; its return value is the fixed offset 90). -/
def addHeaderOp (st : GenState) : GenState := pushOp st (Op.headerBand st.page)

/-- Model of addFooter: a no-op unless the document declared a truthy
footer (the source returns early on a falsy footer argument). -/
def addFooterOp (ctx : Ctx) (st : GenState) : GenState :=
  if ctx.hasFooter then pushOp st (Op.footerBand st.page) else st

/-- Header plus conditional footer, as re-drawn on page breaks and in
the autoTable didDrawPage callback. -/
def addFurniture (ctx : Ctx) (st : GenState) : GenState := addFooterOp ctx (addHeaderOp st)

/-- The inlined break sequence doc.addPage(); addHeader(...);
addFooter(...); y = 100 used at every break site. -/
def breakReset (ctx : Ctx) (st : GenState) : GenState :=
  { addFurniture ctx (addPageOp st) with y := 100 }

/-- Source function willFitOnPage. -/
def willFitOnPage (y tableHeight pageHeight : Int) : Bool :=
  decide (y + tableHeight < pageHeight - 100)

/-- Source function ensureSpacing.  The ensureCall op records the call
into this chokepoint together with its spaceNeeded argument. -/
def ensureSpacing (ctx : Ctx) (st : GenState) (spaceNeeded : Int) : GenState :=
  let st1 := pushOp st (Op.ensureCall st.y spaceNeeded)
  if st.y + spaceNeeded > ctx.pageHeight - 100 then breakReset ctx st1
  else { st1 with y := st.y + spaceNeeded }

/-- One wrapped text line: ensureSpacing with 20, draw at the returned
cursor, advance by 20. -/
def textLineStep (ctx : Ctx) (line : String) (st : GenState) : GenState :=
  let st1 := ensureSpacing ctx st 20
  let st2 := pushOp st1 (Op.textWrite st1.page 50 st1.y line)
  { st2 with y := st2.y + 20 }

/-- The string-field branch: bold upper-cased label, wrapped body lines,
trailing gap of 20. -/
def renderText (ctx : Ctx) (key : String) (s : String) (st : GenState) : GenState :=
  let st1 := ensureSpacing ctx st 30
  let st2 := pushOp st1 (Op.textWrite st1.page 50 st1.y (key.toUpper ++ ":"))
  let st3 := { st2 with y := st2.y + 20 }
  let st4 := (ctx.orc.split s (ctx.pageWidth - 100)).foldl
    (fun acc line => textLineStep ctx line acc) st3
  { st4 with y := st4.y + 20 }

/-- One row of the image branch.  Returns the new state and false when
the row threw (row.url on a null row).  On a truthy url the image is
fetched; on fetch failure a diagnostic is logged and the row skipped;
on success ensureSpacing is called with row.height || 120, a secondary
break check uses row.height || 100, and the image is drawn at
x = row.x or 50, width row.width || 150, height row.height || 100,
advancing the cursor by that height plus 20. -/
def imageRowStep (ctx : Ctx) (row : JsValue) (st : GenState) : GenState × Bool :=
  match row with
  | .null => (st, false)
  | _ =>
    if jsTruthyOpt (jsGet row "url") then
      let stf := pushOp st Op.fetchCall
      if ctx.orc.fetchOk ((jsGet row "url").getD JsValue.null) then
        let h120 := jsOrNum (jsNumField row "height") 120
        let h100 := jsOrNum (jsNumField row "height") 100
        let st1 := ensureSpacing ctx stf h120
        let st2 := if st1.y + h100 > ctx.pageHeight - 100 then breakReset ctx st1 else st1
        let imgX := (jsNumField row "x").getD 50
        let w := jsOrNum (jsNumField row "width") 150
        let st3 := pushOp st2 (Op.imageDraw st2.page imgX st2.y w h100)
        ({ st3 with y := st3.y + h100 + 20 }, true)
      else (pushOp stf Op.diag, true)
    else (st, true)

/-- The image branch walks the rows in order, stopping only if a row
access threw. -/
def renderImages (ctx : Ctx) (rows : List JsValue) (st : GenState) : GenState × Bool :=
  match rows with
  | [] => (st, true)
  | r :: rest =>
    match imageRowStep ctx r st with
    | (st1, true) => renderImages ctx rest st1
    | (st1, false) => (st1, false)

/-- The ops emitted by one break site, newest first. -/
def breakOpsList (ctx : Ctx) (p : Nat) : List Op :=
  (if ctx.hasFooter then [Op.footerBand p] else []) ++ [Op.headerBand p, Op.pageBreak p]

/-- Pages the autoTable collaborator creates internally; didDrawPage
re-draws the furniture on each of them. -/
def tableExtraPages (ctx : Ctx) : Nat → GenState → GenState
  | 0, st => st
  | n + 1, st => tableExtraPages ctx n (addFurniture ctx (addPageOp st))

/-- The table branch: pre-flight estimate rows * 25 + 50 checked with
willFitOnPage, break first if it does not fit, then the autoTable call
(start page furniture via didDrawPage, oracle-many internal pages),
then cursor to finalY + 30. -/
def renderTable (ctx : Ctx) (rows : List JsValue) (headers : List String) (st : GenState) : GenState :=
  let est : Int := rows.length * 25 + 50
  let st1 := if willFitOnPage st.y est ctx.pageHeight then st else breakReset ctx st
  let st2 := pushOp st1 (Op.tableStart st1.page st1.y headers rows.length)
  let st3 := addFurniture ctx st2
  let st4 := tableExtraPages ctx (ctx.orc.tableExtra st3.tcount) st3
  { st4 with y := ctx.orc.tableFinalY st3.tcount + 30, tcount := st4.tcount + 1 }

/-- The rendering kinds a field can take, including the error case where
classification itself throws (Object.keys(null)). -/
inductive FieldKind where
  | text
  | imageTable
  | table
  | skip
  | error
  deriving DecidableEq, Repr

/-- Field classification exactly as the dispatch in the field loop
performs it: strings are text; a non-empty array whose first element
has typeof "object" is tabular, split by whether Object.keys of that
first element contains "url" (Object.keys throws on null); everything
else falls through with no rendering. -/
def classifyField : JsValue → FieldKind
  | .str _ => .text
  | .arr [] => .skip
  | .arr (v0 :: _) =>
    if typeofObject v0 then
      match objKeys? v0 with
      | none => .error
      | some ks => if ks.contains "url" then .imageTable else .table
    else .skip
  | _ => .skip

/-- One iteration of the field loop.  The Bool is false when the
iteration threw (null first element, or a null row inside the image
branch). -/
def processField (ctx : Ctx) (key : String) (v : JsValue) (st : GenState) : GenState × Bool :=
  match v with
  | .str s => (renderText ctx key s st, true)
  | .arr (v0 :: rest) =>
    if typeofObject v0 then
      match objKeys? v0 with
      | none => (st, false)
      | some headers =>
        if headers.contains "url" then renderImages ctx (v0 :: rest) st
        else (renderTable ctx (v0 :: rest) headers st, true)
    else (st, true)
  | _ => (st, true)

/-- The for-in loop over jsonData, skipping the reserved header and
footer keys and stopping on a throw. -/
def runFields (ctx : Ctx) : List (String × JsValue) → GenState → GenState × Bool
  | [], st => (st, true)
  | (k, v) :: rest, st =>
    if k == "header" || k == "footer" then runFields ctx rest st
    else
      match processField ctx k v st with
      | (st1, true) => runFields ctx rest st1
      | (st1, false) => (st1, false)

/-- State after the initial addHeader call: page 1 carries the header
band and the cursor starts at the returned offset 90. -/
def initState : GenState := { y := 90, page := 1, npages := 1, tcount := 0, ops := [Op.headerBand 1] }

/-- The page numbering loop: every existing page i of N is stamped at
(pageWidth - 80, pageHeight - 30); no page is added. -/
def numberingPass (ctx : Ctx) (st : GenState) : GenState :=
  { st with
    ops := ((List.range st.npages).map
      (fun k => Op.stamp (k + 1) st.npages (ctx.pageWidth - 80) (ctx.pageHeight - 30))).reverse ++ st.ops }

/-- The images entry of PDFOptions, declared but never consulted. -/
structure ImageOpt where
  path : String
  x : Int
  y : Int
  width : Int
  height : Int

/-- The PDFOptions record with its source defaults. -/
structure PDFOptions where
  format : String := "a4"
  orientation : String := "portrait"
  fontType : String := "times"
  fontSize : Int := 14
  pageNumbering : Bool := true
  images : List ImageOpt := []

/-- Top-level fields of the document; the engine iterates an object's
own keys. -/
def fieldsOf : JsValue → List (String × JsValue)
  | .obj fields => fields
  | _ => []

def mkCtx (doc : JsValue) (pW pH : Int) (orc : Oracles) : Ctx :=
  { pageWidth := pW
    pageHeight := pH
    hasFooter := jsTruthyOpt (jsGet doc "footer")
    orc := orc }

/-- The layout portion of generatePDF: initial header, the field walk,
the forced trailing addFooter on the current page, and the numbering
pass when pageNumbering is set.  A throw (second component false)
propagates, skipping the trailing steps as in the source try block. -/
def generatePDFRun (doc : JsValue) (opts : PDFOptions) (pW pH : Int) (orc : Oracles) : GenState × Bool :=
  let ctx := mkCtx doc pW pH orc
  let p := runFields ctx (fieldsOf doc) initState
  if p.2 then
    let st2 := addFooterOp ctx p.1
    (if opts.pageNumbering then numberingPass ctx st2 else st2, true)
  else p

/-- Concrete collaborator oracles used by concrete evaluations: each
string wraps to a single line, every image fetch succeeds, autoTable
creates no extra pages and ends at 500. -/
def orc0 : Oracles :=
  { split := fun s _ => [s]
    fetchOk := fun _ => true
    tableExtra := fun _ => 0
    tableFinalY := fun _ => 500 }

/-- Concrete context on a 300-unit-high page with no declared footer. -/
def ctxNoFooter : Ctx := { pageWidth := 596, pageHeight := 300, hasFooter := false, orc := orc0 }

/-- Concrete state with the cursor at 100 on page 1 and an empty trace. -/
def st100 : GenState := { y := 100, page := 1, npages := 1, tcount := 0, ops := [] }

/-- C2 counterexample: at currentY = 100 with neededHeight = 100 on a
300-high page, currentY + neededHeight equals pageHeight - 100, so
willFitOnPage is false, yet ensureSpacing performs no page break (the
page count is unchanged) and returns currentY + neededHeight; hence
ensureSpacing does not break exactly when willFitOnPage is false. -/
theorem ensureSpacing_boundary_counterexample :
    willFitOnPage 100 100 300 = false ∧
    (ensureSpacing ctxNoFooter st100 100).npages = st100.npages ∧
    (ensureSpacing ctxNoFooter st100 100).y = 100 + 100 := by
  refine ⟨by decide, by decide, by decide⟩

/-- C2 amended: willFitOnPage is true iff currentY + neededHeight <
pageHeight - 100, while ensureSpacing triggers a page break (a new
page carrying the header band, the footer band only when the document
declared a footer, and cursor reset to 100) exactly when
currentY + neededHeight > pageHeight - 100 strictly; at the boundary
currentY + neededHeight = pageHeight - 100, where willFitOnPage is
already false, and below it, it returns currentY + neededHeight
without a break. -/
theorem willFit_ensureSpacing_amended (ctx : Ctx) (st : GenState) (needed : Int) :
    (willFitOnPage st.y needed ctx.pageHeight = true ↔ st.y + needed < ctx.pageHeight - 100) ∧
    (ensureSpacing ctx st needed).y =
      (if st.y + needed > ctx.pageHeight - 100 then 100 else st.y + needed) ∧
    (ensureSpacing ctx st needed).npages =
      (if st.y + needed > ctx.pageHeight - 100 then st.npages + 1 else st.npages) ∧
    (ensureSpacing ctx st needed).ops =
      (if st.y + needed > ctx.pageHeight - 100
        then breakOpsList ctx (st.npages + 1) ++ Op.ensureCall st.y needed :: st.ops
        else Op.ensureCall st.y needed :: st.ops) := by
  refine ⟨by simp [willFitOnPage], ?_, ?_, ?_⟩ <;>
    by_cases h : st.y + needed > ctx.pageHeight - 100 <;>
      by_cases hf : ctx.hasFooter <;>
        simp [ensureSpacing, breakReset, addFurniture, addFooterOp, addHeaderOp, addPageOp,
          pushOp, breakOpsList, h, hf]

/-- C9: the images option is inert: for any two values of
options.images, with all other inputs equal, the generator produces
identical states and traces. -/
theorem images_option_inert (doc : JsValue) (opts : PDFOptions) (pW pH : Int) (orc : Oracles)
    (imgs1 imgs2 : List ImageOpt) :
    generatePDFRun doc { opts with images := imgs1 } pW pH orc =
    generatePDFRun doc { opts with images := imgs2 } pW pH orc := rfl

/-- Decimal digit characters are never the letter appearing in url. -/
theorem digitChar_ne_u (m : Nat) (h : m < 10) : Nat.digitChar m ≠ 'u' := by
  interval_cases m <;> decide

/-- Characters accumulated by Nat.toDigitsCore over base 10 are digits:
if the letter u is in the output it was already in the accumulator. -/
theorem toDigitsCore_u_mem : ∀ (fuel n : Nat) (ds : List Char),
    'u' ∈ Nat.toDigitsCore 10 fuel n ds → 'u' ∈ ds := by
  intro fuel
  induction fuel with
  | zero => intro n ds h; simpa [Nat.toDigitsCore] using h
  | succ fuel ih =>
    intro n ds h
    simp only [Nat.toDigitsCore] at h
    have hlt : n % 10 < 10 := Nat.mod_lt _ (by decide)
    by_cases h10 : n / 10 = 0
    · simp only [h10, if_pos rfl] at h
      rcases List.mem_cons.mp h with h | h
      · exact absurd h.symm (digitChar_ne_u _ hlt)
      · exact h
    · rw [if_neg h10] at h
      rcases List.mem_cons.mp (ih _ _ h) with h | h
      · exact absurd h.symm (digitChar_ne_u _ hlt)
      · exact h

/-- The decimal representation of a natural number is never url. -/
theorem natRepr_ne_url (n : Nat) : Nat.repr n ≠ "url" := by
  intro h
  have hdata : Nat.toDigits 10 n = "url".data := by
    have hc := congrArg String.data h
    simpa [Nat.repr, List.asString] using hc
  have hu : 'u' ∈ Nat.toDigits 10 n := by
    rw [hdata]; decide
  have hmem := toDigitsCore_u_mem (n + 1) n [] (by simpa [Nat.toDigits] using hu)
  simp at hmem

/-- Array index keys never contain the key url. -/
theorem indexKeys_no_url (n : Nat) : ((List.range n).map Nat.repr).contains "url" = false := by
  rw [Bool.eq_false_iff]
  intro hc
  rcases List.mem_map.mp (List.elem_iff.mp hc) with ⟨i, _, hi⟩
  exact natRepr_ne_url i hi

/-- Classification exactly as the claim words it: text for strings,
imageTable or table only for non-empty arrays whose first element is a
mapping (by whether it has a url key), and skip in every other case. -/
def claimClassify : JsValue → FieldKind
  | .str _ => .text
  | .arr (v0 :: _) =>
    match v0 with
    | .obj fields => if (fields.map Prod.fst).contains "url" then .imageTable else .table
    | _ => .skip
  | _ => .skip

/-- C5 counterexample: on the field value [[]], a non-empty array whose
first element is an array and not a mapping, the code classifies table
(typeof of an array is "object") while the claim requires skip. -/
theorem classify_array_first_counterexample :
    classifyField (JsValue.arr [JsValue.arr []]) = FieldKind.table ∧
    claimClassify (JsValue.arr [JsValue.arr []]) = FieldKind.skip ∧
    classifyField (JsValue.arr [JsValue.arr []]) ≠ claimClassify (JsValue.arr [JsValue.arr []]) := by
  refine ⟨by decide, by decide, by decide⟩

/-- Classification as amended: the code tests typeof of the first
element against "object", so a non-empty array whose first element is
an array is also classified table (its Object.keys are decimal index
strings, never url), a null first element makes classification throw
(typeof null is "object" but Object.keys(null) raises), and only the
remaining shapes skip. -/
def amendedClassify : JsValue → FieldKind
  | .str _ => .text
  | .arr (v0 :: _) =>
    match v0 with
    | .obj fields => if (fields.map Prod.fst).contains "url" then .imageTable else .table
    | .arr _ => .table
    | .null => .error
    | _ => .skip
  | _ => .skip

/-- C5 amended: the code classifier agrees with the amended
classification on every value. -/
theorem classifyField_amended (v : JsValue) : classifyField v = amendedClassify v := by
  match v with
  | .str s => rfl
  | .num n => rfl
  | .bool b => rfl
  | .null => rfl
  | .obj fs => rfl
  | .arr [] => rfl
  | .arr (v0 :: rest) =>
    match v0 with
    | .str s => rfl
    | .num n => rfl
    | .bool b => rfl
    | .null => rfl
    | .obj fs => rfl
    | .arr xs =>
      simp only [classifyField, amendedClassify, typeofObject, objKeys?, if_pos, indexKeys_no_url,
        Bool.false_eq_true, if_false]

/-- Full characterization of the inlined break sequence. -/
theorem breakReset_eq (ctx : Ctx) (st : GenState) :
    breakReset ctx st =
      { y := 100, page := st.npages + 1, npages := st.npages + 1, tcount := st.tcount,
        ops := breakOpsList ctx (st.npages + 1) ++ st.ops } := by
  by_cases hf : ctx.hasFooter <;>
    simp [breakReset, addFurniture, addFooterOp, addHeaderOp, addPageOp, pushOp, breakOpsList, hf]

/-- Full characterization of ensureSpacing. -/
theorem ensureSpacing_eq (ctx : Ctx) (st : GenState) (needed : Int) :
    ensureSpacing ctx st needed =
      if st.y + needed > ctx.pageHeight - 100 then
        { y := 100, page := st.npages + 1, npages := st.npages + 1, tcount := st.tcount,
          ops := breakOpsList ctx (st.npages + 1) ++ Op.ensureCall st.y needed :: st.ops }
      else { st with y := st.y + needed, ops := Op.ensureCall st.y needed :: st.ops } := by
  by_cases h : st.y + needed > ctx.pageHeight - 100 <;>
    simp [ensureSpacing, breakReset_eq, pushOp, h]

/-- The furniture callback only prepends operations. -/
theorem addFurniture_ops_prefix (ctx : Ctx) (st : GenState) :
    ∃ l, (addFurniture ctx st).ops = l ++ st.ops := by
  by_cases hf : ctx.hasFooter
  · exact ⟨[Op.footerBand st.page, Op.headerBand st.page],
      by simp [addFurniture, addFooterOp, addHeaderOp, pushOp, hf]⟩
  · exact ⟨[Op.headerBand st.page], by simp [addFurniture, addFooterOp, addHeaderOp, pushOp, hf]⟩

/-- The internal autoTable pages only prepend operations. -/
theorem tableExtraPages_ops_prefix (ctx : Ctx) : ∀ (n : Nat) (st : GenState),
    ∃ l, (tableExtraPages ctx n st).ops = l ++ st.ops := by
  intro n
  induction n with
  | zero => exact fun st => ⟨[], rfl⟩
  | succ n ih =>
    intro st
    rcases ih (addFurniture ctx (addPageOp st)) with ⟨l, hl⟩
    rcases addFurniture_ops_prefix ctx (addPageOp st) with ⟨l2, hl2⟩
    refine ⟨l ++ (l2 ++ [Op.pageBreak (st.npages + 1)]), ?_⟩
    rw [tableExtraPages, hl, hl2]
    simp [addPageOp]

/-- C3: the table renderer computes estimatedHeight = rowCount * 25 + 50
and checks willFitOnPage with it before starting the table; when the
estimate does not fit, the page break and its furniture are emitted
before the tableStart, which then begins at offset 100 at the top of
the fresh page; when it fits, the table starts at the current cursor
on the current page with nothing emitted in between, so the header row
and first body row start together. -/
theorem table_preflight (ctx : Ctx) (st : GenState) (rows : List JsValue) (headers : List String) :
    ∃ l, (renderTable ctx rows headers st).ops =
      l ++ Op.tableStart
            (if willFitOnPage st.y ((rows.length : Int) * 25 + 50) ctx.pageHeight
              then st.page else st.npages + 1)
            (if willFitOnPage st.y ((rows.length : Int) * 25 + 50) ctx.pageHeight
              then st.y else 100)
            headers rows.length
        :: ((if willFitOnPage st.y ((rows.length : Int) * 25 + 50) ctx.pageHeight
              then ([] : List Op) else breakOpsList ctx (st.npages + 1)) ++ st.ops) := by
  by_cases hfit : willFitOnPage st.y ((rows.length : Int) * 25 + 50) ctx.pageHeight
  · rcases addFurniture_ops_prefix ctx
      (pushOp st (Op.tableStart st.page st.y headers rows.length)) with ⟨l3, hl3⟩
    rcases tableExtraPages_ops_prefix ctx
      (ctx.orc.tableExtra (addFurniture ctx
        (pushOp st (Op.tableStart st.page st.y headers rows.length))).tcount)
      (addFurniture ctx (pushOp st (Op.tableStart st.page st.y headers rows.length))) with ⟨l4, hl4⟩
    refine ⟨l4 ++ l3, ?_⟩
    simp only [renderTable, if_pos hfit, hfit, if_true]
    rw [hl4, hl3]
    simp [pushOp]
  · rcases addFurniture_ops_prefix ctx
      (pushOp (breakReset ctx st)
        (Op.tableStart (breakReset ctx st).page (breakReset ctx st).y headers rows.length)) with ⟨l3, hl3⟩
    rcases tableExtraPages_ops_prefix ctx
      (ctx.orc.tableExtra (addFurniture ctx
        (pushOp (breakReset ctx st)
          (Op.tableStart (breakReset ctx st).page (breakReset ctx st).y headers rows.length))).tcount)
      (addFurniture ctx (pushOp (breakReset ctx st)
        (Op.tableStart (breakReset ctx st).page (breakReset ctx st).y headers rows.length))) with ⟨l4, hl4⟩
    refine ⟨l4 ++ l3, ?_⟩
    simp only [renderTable, hfit, if_false, Bool.false_eq_true]
    rw [hl4, hl3]
    simp [pushOp, breakReset_eq]

/-- Concrete context on an a4-like 842-unit-high page without footer. -/
def ctx842 : Ctx := { pageWidth := 596, pageHeight := 842, hasFooter := false, orc := orc0 }

/-- Concrete state with the cursor at the initial content offset 90. -/
def st90 : GenState := { y := 90, page := 1, npages := 1, tcount := 0, ops := [] }

/-- C7 counterexample: for an image row that does not override height,
the renderer calls ensureSpacing with 120, not with the claimed
default 100: concretely, the trace holds the call with spaceNeeded 120
and every ensureSpacing call in it has spaceNeeded 120. -/
theorem image_default_height_counterexample :
    Op.ensureCall 90 120 ∈ (imageRowStep ctx842 (JsValue.obj [("url", JsValue.str "u")]) st90).1.ops ∧
    ((imageRowStep ctx842 (JsValue.obj [("url", JsValue.str "u")]) st90).1.ops.all
      (fun op => match op with
        | Op.ensureCall _ needed => needed == 120
        | _ => true)) = true := by
  refine ⟨by decide, by decide⟩

/-- C10: an image row whose url value is absent or falsy is a complete
no-op: no fetch, no drawing, no throw, cursor and trace unchanged, and
the walk over the remaining rows proceeds as if the row were not
present. -/
theorem falsy_url_row_skipped (ctx : Ctx) (st : GenState) (row : JsValue) (rest : List JsValue)
    (hrow : row ≠ JsValue.null) (hurl : jsTruthyOpt (jsGet row "url") = false) :
    imageRowStep ctx row st = (st, true) ∧
    renderImages ctx (row :: rest) st = renderImages ctx rest st := by
  have hstep : imageRowStep ctx row st = (st, true) := by
    match row, hrow with
    | .str s, _ => simp [imageRowStep, hurl]
    | .num n, _ => simp [imageRowStep, hurl]
    | .bool b, _ => simp [imageRowStep, hurl]
    | .arr xs, _ => simp [imageRowStep, hurl]
    | .obj fs, _ => simp [imageRowStep, hurl]
  exact ⟨hstep, by simp [renderImages, hstep]⟩

/-- C10 witness at a concrete row without url: the row is skipped whole. -/
theorem falsy_url_row_skipped_witness :
    imageRowStep ctx842 (JsValue.obj [("height", JsValue.num 50)]) st90 = (st90, true) ∧
    renderImages ctx842 [JsValue.obj [("height", JsValue.num 50)], JsValue.obj [("url", JsValue.str "u")]] st90 =
      renderImages ctx842 [JsValue.obj [("url", JsValue.str "u")]] st90 :=
  falsy_url_row_skipped ctx842 st90 (JsValue.obj [("height", JsValue.num 50)])
    [JsValue.obj [("url", JsValue.str "u")]]
    (by intro h; exact JsValue.noConfusion h) (by decide)

/-- C7 amended: for every successfully fetched image row, the renderer
calls ensureSpacing with the row's requested height or, when the row
does not override it, the default 120, before drawing; the image is
then placed with defaults x = 50, width = 150, height = 100 unless
the row overrides them, and the cursor advances by the drawn height
plus the fixed gap 20. -/
theorem image_row_render_amended (ctx : Ctx) (st : GenState) (row : JsValue)
    (hrow : row ≠ JsValue.null)
    (hurl : jsTruthyOpt (jsGet row "url") = true)
    (hfetch : ctx.orc.fetchOk ((jsGet row "url").getD JsValue.null) = true) :
    ∃ mid yDraw pg,
      ((imageRowStep ctx row st).1.ops =
        Op.imageDraw pg ((jsNumField row "x").getD 50) yDraw
            (jsOrNum (jsNumField row "width") 150) (jsOrNum (jsNumField row "height") 100)
          :: mid ++ Op.ensureCall st.y (jsOrNum (jsNumField row "height") 120)
          :: Op.fetchCall :: st.ops) ∧
      (imageRowStep ctx row st).1.y = yDraw + jsOrNum (jsNumField row "height") 100 + 20 ∧
      (imageRowStep ctx row st).2 = true := by
  match row, hrow with
  | .str s, _ => simp [jsGet, jsTruthyOpt] at hurl
  | .num n, _ => simp [jsGet, jsTruthyOpt] at hurl
  | .bool b, _ => simp [jsGet, jsTruthyOpt] at hurl
  | .arr xs, _ => simp [jsGet, jsTruthyOpt] at hurl
  | .obj fs, _ =>
    by_cases h1 : st.y + jsOrNum (jsNumField (JsValue.obj fs) "height") 120 > ctx.pageHeight - 100
    · by_cases h2 : (100 : Int) + jsOrNum (jsNumField (JsValue.obj fs) "height") 100 >
          ctx.pageHeight - 100
      · refine ⟨breakOpsList ctx (st.npages + 2) ++ breakOpsList ctx (st.npages + 1), 100,
          st.npages + 2, ?_, ?_, ?_⟩ <;>
          simp [imageRowStep, ensureSpacing_eq, pushOp, breakReset_eq, breakOpsList,
            hurl, hfetch, h1, h2]
      · refine ⟨breakOpsList ctx (st.npages + 1), 100, st.npages + 1, ?_, ?_, ?_⟩ <;>
          simp [imageRowStep, ensureSpacing_eq, pushOp, breakReset_eq, breakOpsList,
            hurl, hfetch, h1, h2]
    · by_cases h2 : st.y + jsOrNum (jsNumField (JsValue.obj fs) "height") 120 +
          jsOrNum (jsNumField (JsValue.obj fs) "height") 100 > ctx.pageHeight - 100
      · refine ⟨breakOpsList ctx (st.npages + 1), 100, st.npages + 1, ?_, ?_, ?_⟩ <;>
          simp [imageRowStep, ensureSpacing_eq, pushOp, breakReset_eq, breakOpsList,
            hurl, hfetch, h1, h2]
      · refine ⟨[], st.y + jsOrNum (jsNumField (JsValue.obj fs) "height") 120, st.page,
          ?_, ?_, ?_⟩ <;>
          simp [imageRowStep, ensureSpacing_eq, pushOp, hurl, hfetch, h1, h2]

/-- C7 witness: the amended image-row contract evaluated at a concrete
fetched row with no geometry overrides. -/
theorem image_row_render_amended_witness :
    jsTruthyOpt (jsGet (JsValue.obj [("url", JsValue.str "u")]) "url") = true ∧
    ctx842.orc.fetchOk ((jsGet (JsValue.obj [("url", JsValue.str "u")]) "url").getD JsValue.null) = true ∧
    ∃ mid yDraw pg,
      ((imageRowStep ctx842 (JsValue.obj [("url", JsValue.str "u")]) st90).1.ops =
        Op.imageDraw pg ((jsNumField (JsValue.obj [("url", JsValue.str "u")]) "x").getD 50) yDraw
            (jsOrNum (jsNumField (JsValue.obj [("url", JsValue.str "u")]) "width") 150)
            (jsOrNum (jsNumField (JsValue.obj [("url", JsValue.str "u")]) "height") 100)
          :: mid ++ Op.ensureCall st90.y
              (jsOrNum (jsNumField (JsValue.obj [("url", JsValue.str "u")]) "height") 120)
          :: Op.fetchCall :: st90.ops) ∧
      (imageRowStep ctx842 (JsValue.obj [("url", JsValue.str "u")]) st90).1.y =
        yDraw + jsOrNum (jsNumField (JsValue.obj [("url", JsValue.str "u")]) "height") 100 + 20 ∧
      (imageRowStep ctx842 (JsValue.obj [("url", JsValue.str "u")]) st90).2 = true :=
  ⟨by decide, by decide,
    image_row_render_amended ctx842 st90 (JsValue.obj [("url", JsValue.str "u")])
      (by intro h; exact JsValue.noConfusion h) (by decide) (by decide)⟩

/-- Test for an image-draw operation. -/
def isImageDrawOp : Op → Bool
  | .imageDraw .. => true
  | _ => false

/-- Test for a logged image diagnostic. -/
def isDiagOp : Op → Bool
  | .diag => true
  | _ => false

/-- Rows whose url is truthy and whose fetch succeeds. -/
def rowFetchOkB (ctx : Ctx) (row : JsValue) : Bool :=
  jsTruthyOpt (jsGet row "url") && ctx.orc.fetchOk ((jsGet row "url").getD JsValue.null)

/-- Rows whose url is truthy but whose fetch fails. -/
def rowFetchFailB (ctx : Ctx) (row : JsValue) : Bool :=
  jsTruthyOpt (jsGet row "url") && !(ctx.orc.fetchOk ((jsGet row "url").getD JsValue.null))

/-- One image row contributes exactly one drawn image when its fetch
succeeds, exactly one diagnostic when its fetch fails, and nothing
otherwise; non-null rows never throw. -/
theorem imageRowStep_counts (ctx : Ctx) (row : JsValue) (st : GenState)
    (hrow : row ≠ JsValue.null) :
    (imageRowStep ctx row st).2 = true ∧
    (imageRowStep ctx row st).1.ops.countP isImageDrawOp =
      st.ops.countP isImageDrawOp + (if rowFetchOkB ctx row then 1 else 0) ∧
    (imageRowStep ctx row st).1.ops.countP isDiagOp =
      st.ops.countP isDiagOp + (if rowFetchFailB ctx row then 1 else 0) := by
  match row, hrow with
  | .str s, _ => simp [imageRowStep, rowFetchOkB, rowFetchFailB, jsGet, jsTruthyOpt]
  | .num n, _ => simp [imageRowStep, rowFetchOkB, rowFetchFailB, jsGet, jsTruthyOpt]
  | .bool b, _ => simp [imageRowStep, rowFetchOkB, rowFetchFailB, jsGet, jsTruthyOpt]
  | .arr xs, _ => simp [imageRowStep, rowFetchOkB, rowFetchFailB, jsGet, jsTruthyOpt]
  | .obj fs, _ =>
    by_cases hu : jsTruthyOpt (jsGet (JsValue.obj fs) "url") = true
    · by_cases hfk : ctx.orc.fetchOk ((jsGet (JsValue.obj fs) "url").getD JsValue.null) = true
      · by_cases h1 : st.y + jsOrNum (jsNumField (JsValue.obj fs) "height") 120 >
            ctx.pageHeight - 100
        · by_cases h2 : (100 : Int) + jsOrNum (jsNumField (JsValue.obj fs) "height") 100 >
              ctx.pageHeight - 100 <;>
            by_cases hf : ctx.hasFooter <;>
              simp [imageRowStep, ensureSpacing_eq, pushOp, breakReset_eq, breakOpsList,
                rowFetchOkB, rowFetchFailB, hu, hfk, h1, h2, hf,
                List.countP_cons, List.countP_append, isImageDrawOp, isDiagOp]
        · by_cases h2 : st.y + jsOrNum (jsNumField (JsValue.obj fs) "height") 120 +
              jsOrNum (jsNumField (JsValue.obj fs) "height") 100 > ctx.pageHeight - 100 <;>
            by_cases hf : ctx.hasFooter <;>
              simp [imageRowStep, ensureSpacing_eq, pushOp, breakReset_eq, breakOpsList,
                rowFetchOkB, rowFetchFailB, hu, hfk, h1, h2, hf,
                List.countP_cons, List.countP_append, isImageDrawOp, isDiagOp]
      · simp [imageRowStep, pushOp, rowFetchOkB, rowFetchFailB, hu, hfk,
          List.countP_cons, isImageDrawOp, isDiagOp]
    · simp [imageRowStep, rowFetchOkB, rowFetchFailB, hu,
        List.countP_cons, isImageDrawOp, isDiagOp]

/-- C6: per-row image fetch failure is non-fatal: for rows free of the
null-row throw, the walk over an image table always completes, the
trace gains exactly one drawn image per row whose truthy url fetch
succeeded, and exactly one diagnostic per row whose truthy url fetch
failed — so the artifact contains the successfully fetched rows'
images and not the failed ones. -/
theorem image_fetch_failure_tolerance (ctx : Ctx) :
    ∀ (rows : List JsValue) (st : GenState), (∀ r ∈ rows, r ≠ JsValue.null) →
    (renderImages ctx rows st).2 = true ∧
    (renderImages ctx rows st).1.ops.countP isImageDrawOp =
      st.ops.countP isImageDrawOp + rows.countP (rowFetchOkB ctx) ∧
    (renderImages ctx rows st).1.ops.countP isDiagOp =
      st.ops.countP isDiagOp + rows.countP (rowFetchFailB ctx) := by
  intro rows
  induction rows with
  | nil => intro st _; simp [renderImages]
  | cons r rest ih =>
    intro st hrows
    have hr : r ≠ JsValue.null := hrows r (List.mem_cons_self r rest)
    obtain ⟨hok, hci, hcd⟩ := imageRowStep_counts ctx r st hr
    have hpair : imageRowStep ctx r st = ((imageRowStep ctx r st).1, true) := by
      rw [← hok]
    obtain ⟨ihok, ihci, ihcd⟩ := ih (imageRowStep ctx r st).1
      (fun q hq => hrows q (List.mem_cons_of_mem r hq))
    refine ⟨?_, ?_, ?_⟩ <;> rw [renderImages, hpair] <;>
      simp [ihok, ihci, ihcd, hci, hcd, List.countP_cons] <;> omega

/-- Oracles whose image fetch fails exactly for the url bad. -/
def orcBad : Oracles :=
  { split := fun s _ => [s]
    fetchOk := fun u => match u with
      | .str s => !(s == "bad")
      | _ => true
    tableExtra := fun _ => 0
    tableFinalY := fun _ => 500 }

/-- Concrete context whose middle image fetch fails. -/
def ctxBad : Ctx := { pageWidth := 596, pageHeight := 842, hasFooter := false, orc := orcBad }

/-- Concrete image rows: the middle row's fetch fails. -/
def rowsFetch : List JsValue :=
  [JsValue.obj [("url", JsValue.str "a")],
   JsValue.obj [("url", JsValue.str "bad")],
   JsValue.obj [("url", JsValue.str "c")]]

/-- C6 witness: on three concrete rows whose middle fetch fails, the
walk completes and the counts follow the fetch outcomes. -/
theorem image_fetch_failure_tolerance_witness :
    (∀ r ∈ rowsFetch, r ≠ JsValue.null) ∧
    ((renderImages ctxBad rowsFetch st90).2 = true ∧
      (renderImages ctxBad rowsFetch st90).1.ops.countP isImageDrawOp =
        st90.ops.countP isImageDrawOp + rowsFetch.countP (rowFetchOkB ctxBad) ∧
      (renderImages ctxBad rowsFetch st90).1.ops.countP isDiagOp =
        st90.ops.countP isDiagOp + rowsFetch.countP (rowFetchFailB ctxBad)) := by
  have hrows : ∀ r ∈ rowsFetch, r ≠ JsValue.null := by
    intro r hr
    simp only [rowsFetch, List.mem_cons, List.not_mem_nil, or_false] at hr
    rcases hr with h | h | h <;> subst h <;> exact fun hc => JsValue.noConfusion hc
  exact ⟨hrows, image_fetch_failure_tolerance ctxBad rowsFetch st90 hrows⟩

/-- Every page of a state is stamped i of N at the bottom-right corner. -/
def allStamped (pW pH : Int) (st : GenState) : Prop :=
  ∀ i, 1 ≤ i → i ≤ st.npages → Op.stamp i st.npages (pW - 80) (pH - 30) ∈ st.ops

/-- C8: when pageNumbering is set and generation completed, every page
i of the final N pages is stamped i of N at (pageWidth - 80,
pageHeight - 30), and the numbering pass adds no pages: the page count
equals the page count of the identical run without numbering. -/
theorem page_numbering_consistency (doc : JsValue) (opts : PDFOptions) (pW pH : Int)
    (orc : Oracles) (hnum : opts.pageNumbering = true)
    (hok : (generatePDFRun doc opts pW pH orc).2 = true) :
    allStamped pW pH (generatePDFRun doc opts pW pH orc).1 ∧
    (generatePDFRun doc opts pW pH orc).1.npages =
      (generatePDFRun doc { opts with pageNumbering := false } pW pH orc).1.npages := by
  by_cases hp : (runFields (mkCtx doc pW pH orc) (fieldsOf doc) initState).2 = true
  · have hrun : generatePDFRun doc opts pW pH orc =
        (numberingPass (mkCtx doc pW pH orc)
          (addFooterOp (mkCtx doc pW pH orc)
            (runFields (mkCtx doc pW pH orc) (fieldsOf doc) initState).1), true) := by
      simp [generatePDFRun, hp, hnum]
    have hrunf : generatePDFRun doc { opts with pageNumbering := false } pW pH orc =
        (addFooterOp (mkCtx doc pW pH orc)
          (runFields (mkCtx doc pW pH orc) (fieldsOf doc) initState).1, true) := by
      simp [generatePDFRun, hp]
    constructor
    · rw [hrun]
      intro i h1 hiN
      simp only [numberingPass] at hiN ⊢
      refine List.mem_append.mpr (Or.inl ?_)
      rw [List.mem_reverse]
      refine List.mem_map.mpr ⟨i - 1, List.mem_range.mpr (by omega), ?_⟩
      have hi : i - 1 + 1 = i := by omega
      rw [hi]
      rfl
    · rw [hrun, hrunf]
      simp [numberingPass]
  · have hfail : generatePDFRun doc opts pW pH orc =
        runFields (mkCtx doc pW pH orc) (fieldsOf doc) initState := by
      simp [generatePDFRun, hp]
    rw [hfail] at hok
    exact absurd hok hp

/-- Oracles wrapping every string to twenty identical lines. -/
def orcLines : Oracles :=
  { split := fun s _ => List.replicate 20 s
    fetchOk := fun _ => true
    tableExtra := fun _ => 0
    tableFinalY := fun _ => 500 }

/-- Concrete document declaring a footer and one long text field. -/
def docFooterText : JsValue :=
  JsValue.obj [("footer", JsValue.obj [("text", JsValue.str "F")]),
               ("body", JsValue.str "B")]

/-- The generator's run on that document on an a4-like 842-high page. -/
def runFooterText : GenState × Bool := generatePDFRun docFooterText {} 596 842 orcLines

/-- C8 witness: the numbering contract evaluated on a concrete
completed two-page run. -/
theorem page_numbering_consistency_witness :
    allStamped 596 842 (generatePDFRun docFooterText {} 596 842 orcLines).1 ∧
    (generatePDFRun docFooterText {} 596 842 orcLines).1.npages =
      (generatePDFRun docFooterText { ({} : PDFOptions) with pageNumbering := false }
        596 842 orcLines).1.npages :=
  page_numbering_consistency docFooterText {} 596 842 orcLines rfl (by decide)

/-- C4 failing run: the document declares a footer and its single text
field wraps to twenty lines, forcing one page break; generation
completes with two pages, each carries the header band, but the footer
band lands only on the second page.  The final forced addFooter draws
on the current (last) page, so page 1 never receives footer furniture
although a footer was declared. -/
theorem footer_missing_on_first_page :
    jsTruthyOpt (jsGet docFooterText "footer") = true ∧
    runFooterText.2 = true ∧
    runFooterText.1.npages = 2 ∧
    Op.headerBand 1 ∈ runFooterText.1.ops ∧
    Op.headerBand 2 ∈ runFooterText.1.ops ∧
    Op.footerBand 2 ∈ runFooterText.1.ops ∧
    Op.footerBand 1 ∉ runFooterText.1.ops := by
  refine ⟨by decide, by decide, by decide, by decide, by decide, by decide, by decide⟩

/-- The y-coordinate at which an operation writes field content (text
label or line, image, table start); none for furniture, stamps and
collaborator events. -/
def contentY : Op → Option Int
  | .textWrite _ _ y _ => some y
  | .imageDraw _ _ y _ _ => some y
  | .tableStart _ y _ _ => some y
  | _ => none

/-- Every content write in a trace stays at or above the reserved
bottom band of 100 units. -/
def opsBounded (pH : Int) (l : List Op) : Prop :=
  ∀ op ∈ l, ∀ yv, contentY op = some yv → yv ≤ pH - 100

/-- Break sites emit only furniture, never content. -/
theorem breakOpsList_no_content (ctx : Ctx) (p : Nat) :
    ∀ op ∈ breakOpsList ctx p, contentY op = none := by
  intro op hop
  cases hfc : ctx.hasFooter <;> simp [breakOpsList, hfc] at hop <;>
    first
    | (rcases hop with rfl | rfl <;> rfl)
    | (rcases hop with rfl | rfl | rfl <;> rfl)

theorem opsBounded_cons_none (pH : Int) (op : Op) (l : List Op) (hop : contentY op = none)
    (hb : opsBounded pH l) : opsBounded pH (op :: l) := by
  intro q hq yv hcy
  rcases List.mem_cons.mp hq with rfl | hq
  · rw [hop] at hcy; exact Option.noConfusion hcy
  · exact hb q hq yv hcy

theorem opsBounded_cons_some (pH : Int) (op : Op) (l : List Op) (yv0 : Int)
    (hop : contentY op = some yv0) (hy : yv0 ≤ pH - 100)
    (hb : opsBounded pH l) : opsBounded pH (op :: l) := by
  intro q hq yv hcy
  rcases List.mem_cons.mp hq with rfl | hq
  · rw [hop] at hcy; exact Option.some.inj hcy ▸ hy
  · exact hb q hq yv hcy

theorem opsBounded_append_none (pH : Int) (l1 l2 : List Op)
    (h1 : ∀ op ∈ l1, contentY op = none) (hb : opsBounded pH l2) :
    opsBounded pH (l1 ++ l2) := by
  intro q hq yv hcy
  rcases List.mem_append.mp hq with hq | hq
  · rw [h1 q hq] at hcy; exact Option.noConfusion hcy
  · exact hb q hq yv hcy

/-- A break preserves boundedness and resets the cursor to 100. -/
theorem breakReset_bounded (ctx : Ctx) (st : GenState)
    (hb : opsBounded ctx.pageHeight st.ops) :
    opsBounded ctx.pageHeight (breakReset ctx st).ops ∧ (breakReset ctx st).y = 100 := by
  rw [breakReset_eq]
  exact ⟨opsBounded_append_none _ _ _ (breakOpsList_no_content ctx _) hb, rfl⟩

/-- The chokepoint: ensureSpacing preserves boundedness and always
returns a cursor at or above the reserved band. -/
theorem ensureSpacing_bounded (ctx : Ctx) (st : GenState) (needed : Int)
    (hpH : 200 ≤ ctx.pageHeight) (hb : opsBounded ctx.pageHeight st.ops) :
    opsBounded ctx.pageHeight (ensureSpacing ctx st needed).ops ∧
    (ensureSpacing ctx st needed).y ≤ ctx.pageHeight - 100 := by
  rw [ensureSpacing_eq]
  by_cases h : st.y + needed > ctx.pageHeight - 100
  · rw [if_pos h]
    refine ⟨opsBounded_append_none _ _ _ (breakOpsList_no_content ctx _)
      (opsBounded_cons_none _ _ _ rfl hb), ?_⟩
    show (100 : Int) ≤ ctx.pageHeight - 100
    omega
  · rw [if_neg h]
    refine ⟨opsBounded_cons_none _ _ _ rfl hb, ?_⟩
    show st.y + needed ≤ ctx.pageHeight - 100
    omega

theorem textLineStep_bounded (ctx : Ctx) (line : String) (st : GenState)
    (hpH : 200 ≤ ctx.pageHeight) (hb : opsBounded ctx.pageHeight st.ops) :
    opsBounded ctx.pageHeight (textLineStep ctx line st).ops := by
  obtain ⟨hb1, hy1⟩ := ensureSpacing_bounded ctx st 20 hpH hb
  exact opsBounded_cons_some _ _ _ _ rfl hy1 hb1

theorem textFold_bounded (ctx : Ctx) (hpH : 200 ≤ ctx.pageHeight) :
    ∀ (lines : List String) (st : GenState), opsBounded ctx.pageHeight st.ops →
    opsBounded ctx.pageHeight
      (lines.foldl (fun acc line => textLineStep ctx line acc) st).ops := by
  intro lines
  induction lines with
  | nil => intro st hb; simpa using hb
  | cons l ls ih =>
    intro st hb
    rw [List.foldl_cons]
    exact ih _ (textLineStep_bounded ctx l st hpH hb)

theorem renderText_bounded (ctx : Ctx) (key s : String) (st : GenState)
    (hpH : 200 ≤ ctx.pageHeight) (hb : opsBounded ctx.pageHeight st.ops) :
    opsBounded ctx.pageHeight (renderText ctx key s st).ops := by
  obtain ⟨hb1, hy1⟩ := ensureSpacing_bounded ctx st 30 hpH hb
  exact textFold_bounded ctx hpH _ _ (opsBounded_cons_some _ _ _ _ rfl hy1 hb1)

theorem imageRowStep_bounded (ctx : Ctx) (row : JsValue) (st : GenState)
    (hpH : 200 ≤ ctx.pageHeight) (hb : opsBounded ctx.pageHeight st.ops) :
    opsBounded ctx.pageHeight (imageRowStep ctx row st).1.ops := by
  match row with
  | .null => simpa [imageRowStep] using hb
  | .str s => simpa [imageRowStep, jsGet, jsTruthyOpt] using hb
  | .num n => simpa [imageRowStep, jsGet, jsTruthyOpt] using hb
  | .bool b => simpa [imageRowStep, jsGet, jsTruthyOpt] using hb
  | .arr xs => simpa [imageRowStep, jsGet, jsTruthyOpt] using hb
  | .obj fs =>
    by_cases hu : jsTruthyOpt (jsGet (JsValue.obj fs) "url") = true
    · by_cases hfk : ctx.orc.fetchOk ((jsGet (JsValue.obj fs) "url").getD JsValue.null) = true
      · have hb0 : opsBounded ctx.pageHeight (pushOp st Op.fetchCall).ops :=
          opsBounded_cons_none _ _ _ rfl hb
        obtain ⟨hb1, hy1⟩ := ensureSpacing_bounded ctx (pushOp st Op.fetchCall)
          (jsOrNum (jsNumField (JsValue.obj fs) "height") 120) hpH hb0
        by_cases h2 : (ensureSpacing ctx (pushOp st Op.fetchCall)
              (jsOrNum (jsNumField (JsValue.obj fs) "height") 120)).y +
            jsOrNum (jsNumField (JsValue.obj fs) "height") 100 > ctx.pageHeight - 100
        · obtain ⟨hb2, hy2⟩ := breakReset_bounded ctx _ hb1
          simp only [imageRowStep, hu, if_true, hfk, h2]
          exact opsBounded_cons_some _ _ _ _ rfl (by omega) hb2
        · simp only [imageRowStep, hu, if_true, hfk, h2, if_false]
          exact opsBounded_cons_some _ _ _ _ rfl (by omega) hb1
      · simp only [imageRowStep, hu, if_true, hfk, Bool.false_eq_true, if_false]
        exact opsBounded_cons_none _ _ _ rfl (opsBounded_cons_none _ _ _ rfl hb)
    · simpa [imageRowStep, hu] using hb

theorem renderImages_bounded (ctx : Ctx) (hpH : 200 ≤ ctx.pageHeight) :
    ∀ (rows : List JsValue) (st : GenState), opsBounded ctx.pageHeight st.ops →
    opsBounded ctx.pageHeight (renderImages ctx rows st).1.ops := by
  intro rows
  induction rows with
  | nil => intro st hb; simpa [renderImages] using hb
  | cons r rest ih =>
    intro st hb
    have hstep := imageRowStep_bounded ctx r st hpH hb
    rw [renderImages]
    cases hpr : imageRowStep ctx r st with
    | mk st1 b =>
      rw [hpr] at hstep
      cases b
      · simpa using hstep
      · exact ih st1 hstep

theorem addFurniture_bounded (ctx : Ctx) (pH : Int) (st : GenState)
    (hb : opsBounded pH st.ops) : opsBounded pH (addFurniture ctx st).ops := by
  cases hfc : ctx.hasFooter
  · simp [addFurniture, addFooterOp, hfc]
    exact opsBounded_cons_none _ _ _ rfl hb
  · simp [addFurniture, addFooterOp, hfc]
    exact opsBounded_cons_none _ _ _ rfl (opsBounded_cons_none _ _ _ rfl hb)

theorem tableExtraPages_bounded (ctx : Ctx) (pH : Int) :
    ∀ (n : Nat) (st : GenState), opsBounded pH st.ops →
    opsBounded pH (tableExtraPages ctx n st).ops := by
  intro n
  induction n with
  | zero => intro st hb; simpa [tableExtraPages] using hb
  | succ n ih =>
    intro st hb
    rw [tableExtraPages]
    exact ih _ (addFurniture_bounded ctx pH _ (opsBounded_cons_none _ _ _ rfl hb))

theorem renderTable_bounded (ctx : Ctx) (rows : List JsValue) (headers : List String)
    (st : GenState) (hpH : 200 ≤ ctx.pageHeight) (hb : opsBounded ctx.pageHeight st.ops) :
    opsBounded ctx.pageHeight (renderTable ctx rows headers st).ops := by
  by_cases hfit : willFitOnPage st.y ((rows.length : Int) * 25 + 50) ctx.pageHeight = true
  · have hylt : st.y + ((rows.length : Int) * 25 + 50) < ctx.pageHeight - 100 := by
      simpa [willFitOnPage] using hfit
    have hy : st.y ≤ ctx.pageHeight - 100 := by
      have hnn : (0 : Int) ≤ (rows.length : Int) * 25 := by positivity
      omega
    simp only [renderTable, hfit, if_true]
    exact tableExtraPages_bounded ctx _ _ _
      (addFurniture_bounded ctx _ _ (opsBounded_cons_some _ _ _ _ rfl hy hb))
  · obtain ⟨hbB, hyB⟩ := breakReset_bounded ctx st hb
    simp only [renderTable, hfit, Bool.false_eq_true, if_false]
    exact tableExtraPages_bounded ctx _ _ _
      (addFurniture_bounded ctx _ _ (opsBounded_cons_some _ _ _ _ rfl (by omega) hbB))

theorem processField_bounded (ctx : Ctx) (key : String) (v : JsValue) (st : GenState)
    (hpH : 200 ≤ ctx.pageHeight) (hb : opsBounded ctx.pageHeight st.ops) :
    opsBounded ctx.pageHeight (processField ctx key v st).1.ops := by
  match v with
  | .str s => exact renderText_bounded ctx key s st hpH hb
  | .num n => simpa [processField] using hb
  | .bool b => simpa [processField] using hb
  | .null => simpa [processField] using hb
  | .obj fs => simpa [processField] using hb
  | .arr [] => simpa [processField] using hb
  | .arr (v0 :: rest) =>
    simp only [processField]
    by_cases hto : typeofObject v0 = true
    · simp only [hto, if_true]
      cases hok : objKeys? v0 with
      | none => simpa using hb
      | some headers =>
        by_cases hurl : headers.contains "url" = true
        · simp only [hurl, if_true]
          exact renderImages_bounded ctx hpH (v0 :: rest) st hb
        · simp only [hurl, Bool.false_eq_true, if_false]
          exact renderTable_bounded ctx (v0 :: rest) headers st hpH hb
    · simp only [hto, Bool.false_eq_true, if_false]
      exact hb

theorem runFields_bounded (ctx : Ctx) (hpH : 200 ≤ ctx.pageHeight) :
    ∀ (fs : List (String × JsValue)) (st : GenState), opsBounded ctx.pageHeight st.ops →
    opsBounded ctx.pageHeight (runFields ctx fs st).1.ops := by
  intro fs
  induction fs with
  | nil => intro st hb; simpa [runFields] using hb
  | cons kv rest ih =>
    intro st hb
    rcases kv with ⟨k, v⟩
    rw [runFields]
    by_cases hres : (k == "header" || k == "footer") = true
    · simp only [hres, if_true]
      exact ih st hb
    · simp only [hres, Bool.false_eq_true, if_false]
      have hstep := processField_bounded ctx k v st hpH hb
      cases hpr : processField ctx k v st with
      | mk st1 b =>
        rw [hpr] at hstep
        cases b
        · simpa using hstep
        · exact ih st1 hstep

theorem addFooterOp_bounded (ctx : Ctx) (pH : Int) (st : GenState)
    (hb : opsBounded pH st.ops) : opsBounded pH (addFooterOp ctx st).ops := by
  cases hfc : ctx.hasFooter
  · simpa [addFooterOp, hfc] using hb
  · simp [addFooterOp, hfc]
    exact opsBounded_cons_none _ _ _ rfl hb

theorem numberingPass_bounded (ctx : Ctx) (pH : Int) (st : GenState)
    (hb : opsBounded pH st.ops) : opsBounded pH (numberingPass ctx st).ops := by
  intro op hop yv hcy
  simp only [numberingPass] at hop
  rcases List.mem_append.mp hop with hop | hop
  · rw [List.mem_reverse] at hop
    rcases List.mem_map.mp hop with ⟨k, _, rfl⟩
    simp [contentY] at hcy
  · exact hb op hop yv hcy

/-- C1: on pages at least 200 units high, every content write (text
label or line, image placement, table start) in the generated trace
stays at or above pageHeight - 100: every renderer path goes through
the ensureSpacing chokepoint, the table pre-flight, or the image
renderer's secondary break check before writing, so no content is
drawn past the bottom margin. -/
theorem no_overlap_invariant (doc : JsValue) (opts : PDFOptions) (pW pH : Int) (orc : Oracles)
    (hpH : 200 ≤ pH) :
    opsBounded pH (generatePDFRun doc opts pW pH orc).1.ops := by
  have hinit : opsBounded pH initState.ops := by
    intro op hop yv hcy
    simp [initState] at hop
    subst hop
    simp [contentY] at hcy
  have hpH2 : 200 ≤ (mkCtx doc pW pH orc).pageHeight := hpH
  have hfields := runFields_bounded (mkCtx doc pW pH orc) hpH2 (fieldsOf doc) initState hinit
  by_cases hp : (runFields (mkCtx doc pW pH orc) (fieldsOf doc) initState).2 = true
  · cases hnum : opts.pageNumbering
    · simp only [generatePDFRun, hp, if_true, hnum, Bool.false_eq_true, if_false]
      exact addFooterOp_bounded _ _ _ hfields
    · simp only [generatePDFRun, hp, if_true, hnum]
      exact numberingPass_bounded _ _ _ (addFooterOp_bounded _ _ _ hfields)
  · simp only [generatePDFRun, hp, Bool.false_eq_true, if_false]
    exact hfields

/-- C1 witness: the invariant evaluated on a concrete two-page run. -/
theorem no_overlap_invariant_witness :
    (200 : Int) ≤ 842 ∧
    opsBounded 842 (generatePDFRun docFooterText {} 596 842 orcLines).1.ops :=
  ⟨by decide, no_overlap_invariant docFooterText {} 596 842 orcLines (by decide)⟩
